import Mathlib

/-!
Verification of `obsidian_kindleNotes_to_zotero.py` (Obsidian Kindle-notes → Zotero sync).

Shallow embedding conventions:
* Python strings are modelled as `List Nat` of Unicode codepoints (`Str`).
  `str.lower()` is modelled on the ASCII range (the punctuation table that
  `normalize_title` strips is ASCII punctuation plus the four curly quotes,
  which are included by codepoint); `str.split()` / `str.strip()` whitespace
  is modelled as the ASCII whitespace codepoints.
* JSON values decoded by `response.json()` are the inductive `JValue`;
  a body that fails to decode is `none` (Python `None` and JSON `null`
  coincide, both are `JValue.null` once defaulted).
* Remote record keys are modelled as strings: a `"key"` field whose value is
  not a string is treated as absent (the script only ever receives string
  keys; a non-string value would flow into truthiness checks the same way).
* The run is embedded in a state monad `M` over the in-memory sent-log and a
  trace of observable effects (`Event`): network calls actually issued,
  `time.sleep` calls, and sent-log persistence.  Uncaught Python exceptions
  are `Except.error`.
* `highlight_hash` applies `hashlib.md5` to the byte string
  `text + "|" + (note or "") + "|" + (location or "")`; the model keeps the
  digest input itself (the usual collision-resistance idealization).  All
  equalities and the exhibited collision below are at the digest-input
  level, so they hold for the real composite with MD5 as well.
-/

/-- Python strings as lists of Unicode codepoints. -/
abbrev Str := List Nat

/-- Codepoint list of a Lean string literal (used only to write concrete inputs). -/
def lit (s : String) : Str := s.toList.map Char.toNat

/-- ASCII whitespace, the characters `str.split()` / `str.strip()` split on
(modelling the ASCII fragment of Python's Unicode whitespace). -/
def isWs (c : Nat) : Bool :=
  c == 9 || c == 10 || c == 11 || c == 12 || c == 13 || c == 32

/-- Membership in `string.punctuation + "“”‘’"`, the deletion table built by
`normalize_title` (ASCII punctuation is the codepoint ranges 33–47, 58–64,
91–96, 123–126; the curly quotes are U+2018, U+2019, U+201C, U+201D). -/
def isPunct (c : Nat) : Bool :=
  decide ((33 ≤ c ∧ c ≤ 47) ∨ (58 ≤ c ∧ c ≤ 64) ∨ (91 ≤ c ∧ c ≤ 96) ∨
    (123 ≤ c ∧ c ≤ 126) ∨ c = 8216 ∨ c = 8217 ∨ c = 8220 ∨ c = 8221)

/-- `str.lower()` on one codepoint (ASCII model). -/
def pyLower (c : Nat) : Nat := if 65 ≤ c ∧ c ≤ 90 then c + 32 else c

/-- Worker for `str.split()`: `acc` holds the reversed current word. -/
def splitWsAux : Str → Str → List Str
  | [], acc => if acc.isEmpty then [] else [acc.reverse]
  | c :: rest, acc =>
    if isWs c then
      if acc.isEmpty then splitWsAux rest [] else acc.reverse :: splitWsAux rest []
    else splitWsAux rest (c :: acc)

/-- Python `s.split()`: split on whitespace runs, dropping empty pieces. -/
def splitWs (l : Str) : List Str := splitWsAux l []

/-- Python `" ".join(ws)`. -/
def joinWords : List Str → Str
  | [] => []
  | [w] => w
  | w :: ws => w ++ 32 :: joinWords ws

/-- `normalize_title` (line 132): lower-case, delete punctuation/curly quotes,
collapse whitespace; empty input short-circuits to the empty string. -/
def normalize_title (s : Str) : Str :=
  if s.isEmpty then []
  else joinWords (splitWs ((s.map pyLower).filter (fun c => !isPunct c)))

/-- `normalize_author` (line 137): lower-case and collapse whitespace only. -/
def normalize_author (s : Str) : Str :=
  if s.isEmpty then [] else joinWords (splitWs (s.map pyLower))

/-- One highlight as produced by `parse_kindle_md` (always has `text`;
`location` and `note` may be absent). -/
structure Highlight where
  text : Str
  location : Option Str
  note : Option Str
deriving DecidableEq, Repr

/-- The digest input of `highlight_hash` (line 304):
`text + "|" + (note or "") + "|" + (location or "")`.
The script feeds this string to `hashlib.md5`; the model keeps the digest
input (collision-resistance idealization; everything proved about it is an
input-level fact and therefore also holds of the MD5 composite). -/
def highlight_hash (h : Highlight) : Str :=
  h.text ++ lit "|" ++ (h.note.getD []) ++ lit "|" ++ (h.location.getD [])

/-- The (text, note-or-empty, location-or-empty) triple of a highlight, the
identity the spec says the fingerprint captures. -/
def fpTriple (h : Highlight) : Str × Str × Str :=
  (h.text, h.note.getD [], h.location.getD [])

/- ### Support lemmas for idempotence of `normalize_title` (claim C9) -/

theorem pyLower_pyLower (c : Nat) : pyLower (pyLower c) = pyLower c := by
  unfold pyLower
  by_cases h : 65 ≤ c ∧ c ≤ 90
  · rw [if_pos h, if_neg (by omega)]
  · rw [if_neg h, if_neg h]

theorem mem_splitWsAux_src {l acc : Str} {w : Str} {d : Nat}
    (hw : w ∈ splitWsAux l acc) (hd : d ∈ w) : d ∈ l ∨ d ∈ acc := by
  induction l generalizing acc with
  | nil =>
    cases acc with
    | nil => simp [splitWsAux] at hw
    | cons a as =>
      simp [splitWsAux] at hw
      subst hw
      right
      simp only [List.mem_append, List.mem_reverse, List.mem_singleton] at hd
      rcases hd with hd | hd
      · exact List.mem_cons_of_mem _ hd
      · simp [hd]
  | cons c rest ih =>
    by_cases hws : isWs c
    · cases acc with
      | nil =>
        rw [show splitWsAux (c :: rest) [] = splitWsAux rest [] from by
          simp [splitWsAux, hws]] at hw
        rcases ih hw with h' | h'
        · exact Or.inl (List.mem_cons_of_mem _ h')
        · simp at h'
      | cons a as =>
        rw [show splitWsAux (c :: rest) (a :: as) =
            (a :: as).reverse :: splitWsAux rest [] from by
          simp [splitWsAux, hws], List.mem_cons] at hw
        rcases hw with hw | hw
        · subst hw
          right; exact (List.mem_reverse).1 hd
        · rcases ih hw with h' | h'
          · exact Or.inl (List.mem_cons_of_mem _ h')
          · simp at h'
    · rw [show splitWsAux (c :: rest) acc = splitWsAux rest (c :: acc) from by
        simp [splitWsAux, hws]] at hw
      rcases ih hw with h' | h'
      · exact Or.inl (List.mem_cons_of_mem _ h')
      · rcases List.mem_cons.1 h' with h' | h'
        · exact Or.inl (by simp [h'])
        · exact Or.inr h'

theorem splitWsAux_words {l acc : Str} {w : Str}
    (hacc : ∀ d ∈ acc, isWs d = false)
    (hw : w ∈ splitWsAux l acc) : w ≠ [] ∧ ∀ d ∈ w, isWs d = false := by
  induction l generalizing acc with
  | nil =>
    cases acc with
    | nil => simp [splitWsAux] at hw
    | cons a as =>
      simp [splitWsAux] at hw
      subst hw
      refine ⟨by simp, ?_⟩
      intro d hd
      simp only [List.mem_append, List.mem_reverse, List.mem_singleton] at hd
      rcases hd with hd | hd
      · exact hacc d (List.mem_cons_of_mem _ hd)
      · exact hacc d (by simp [hd])
  | cons c rest ih =>
    by_cases hws : isWs c
    · cases acc with
      | nil =>
        rw [show splitWsAux (c :: rest) [] = splitWsAux rest [] from by
          simp [splitWsAux, hws]] at hw
        exact ih (by simp) hw
      | cons a as =>
        rw [show splitWsAux (c :: rest) (a :: as) =
            (a :: as).reverse :: splitWsAux rest [] from by
          simp [splitWsAux, hws], List.mem_cons] at hw
        rcases hw with hw | hw
        · subst hw
          refine ⟨by simp, ?_⟩
          intro d hd; exact hacc d ((List.mem_reverse).1 hd)
        · exact ih (by simp) hw
    · rw [show splitWsAux (c :: rest) acc = splitWsAux rest (c :: acc) from by
        simp [splitWsAux, hws]] at hw
      refine ih ?_ hw
      intro d hd
      rcases List.mem_cons.1 hd with hd | hd
      · subst hd; simpa using hws
      · exact hacc d hd

theorem splitWsAux_word_step {w : Str} (hnws : ∀ d ∈ w, isWs d = false) :
    ∀ l acc, splitWsAux (w ++ l) acc = splitWsAux l (w.reverse ++ acc) := by
  induction w with
  | nil => intro l acc; simp
  | cons c w' ih =>
    intro l acc
    have hc : isWs c = false := hnws c (by simp)
    have hw' : ∀ d ∈ w', isWs d = false := fun d hd => hnws d (by simp [hd])
    simp only [List.cons_append]
    rw [show splitWsAux (c :: (w' ++ l)) acc = splitWsAux (w' ++ l) (c :: acc) from by
      simp [splitWsAux, hc]]
    rw [ih hw' l (c :: acc)]
    simp

theorem splitWs_joinWords {ws : List Str}
    (hws : ∀ w ∈ ws, w ≠ [] ∧ ∀ d ∈ w, isWs d = false) :
    splitWs (joinWords ws) = ws := by
  induction ws with
  | nil => rfl
  | cons w rest ih =>
    rcases hws w (by simp) with ⟨hne, hnws⟩
    have hrest : ∀ w' ∈ rest, w' ≠ [] ∧ ∀ d ∈ w', isWs d = false :=
      fun w' hw' => hws w' (by simp [hw'])
    have hrevne : ((w.reverse ++ ([] : Str)).isEmpty) = false := by
      simp [List.isEmpty_iff, hne]
    cases rest with
    | nil =>
      show splitWs (joinWords [w]) = [w]
      have h1 := splitWsAux_word_step hnws [] []
      rw [List.append_nil] at h1
      show splitWsAux w [] = [w]
      rw [h1]
      simp [splitWsAux, List.isEmpty_iff, hne]
    | cons w2 rest' =>
      show splitWsAux (w ++ 32 :: joinWords (w2 :: rest')) [] = w :: w2 :: rest'
      rw [splitWsAux_word_step hnws _ []]
      have h32 : isWs 32 = true := by decide
      rw [show splitWsAux (32 :: joinWords (w2 :: rest')) (w.reverse ++ []) =
          (w.reverse ++ []).reverse :: splitWsAux (joinWords (w2 :: rest')) [] from by
        simp only [splitWsAux, h32, if_true, hrevne, Bool.false_eq_true, if_false]]
      have := ih hrest
      unfold splitWs at this
      simp [this]

theorem map_id_of_mem {l : List Nat} {f : Nat → Nat}
    (h : ∀ d ∈ l, f d = d) : l.map f = l := by
  induction l with
  | nil => rfl
  | cons a l ih => simp [h a (by simp), ih (fun d hd => h d (by simp [hd]))]

theorem mem_joinWords {ws : List Str} {d : Nat} (hd : d ∈ joinWords ws) :
    d = 32 ∨ ∃ w ∈ ws, d ∈ w := by
  induction ws with
  | nil => simp [joinWords] at hd
  | cons w rest ih =>
    cases rest with
    | nil =>
      simp only [joinWords] at hd
      exact Or.inr ⟨w, by simp, hd⟩
    | cons w2 rest' =>
      simp only [joinWords] at hd
      rw [List.mem_append] at hd
      rcases hd with hd | hd
      · exact Or.inr ⟨w, by simp, hd⟩
      · rw [List.mem_cons] at hd
        rcases hd with hd | hd
        · exact Or.inl hd
        · rcases ih hd with h | ⟨w', hw', hd'⟩
          · exact Or.inl h
          · exact Or.inr ⟨w', by simp [hw'], hd'⟩

/-- Claim C9: `normalize_title` is idempotent:
`normalize_title (normalize_title s) = normalize_title s` for every string. -/
theorem normalize_title_idem (s : Str) :
    normalize_title (normalize_title s) = normalize_title s := by
  by_cases hs : s.isEmpty
  · simp [normalize_title, hs]
  · set t := normalize_title s with ht
    have htdef : t = joinWords (splitWs ((s.map pyLower).filter (fun c => !isPunct c))) := by
      rw [ht, normalize_title, if_neg hs]
    by_cases hte : t.isEmpty
    · rw [normalize_title, if_pos hte]
      simp [List.isEmpty_iff] at hte
      exact hte.symm
    · rw [normalize_title, if_neg hte]
      have hwords : ∀ w ∈ splitWs ((s.map pyLower).filter (fun c => !isPunct c)),
          w ≠ [] ∧ ∀ d ∈ w, isWs d = false :=
        fun w hw => splitWsAux_words (by simp) hw
      -- every codepoint of t is either the inserted space or comes from the
      -- lowered, punctuation-stripped source string
      have hmem : ∀ d ∈ t, d = 32 ∨ d ∈ (s.map pyLower).filter (fun c => !isPunct c) := by
        intro d hd
        rw [htdef] at hd
        rcases mem_joinWords hd with h | ⟨w, hw, hd'⟩
        · exact Or.inl h
        · refine Or.inr ?_
          rcases mem_splitWsAux_src hw hd' with h | h
          · exact h
          · simp at h
      have hlower : t.map pyLower = t := by
        apply map_id_of_mem
        intro d hd
        rcases hmem d hd with h | h
        · subst h; decide
        · rcases List.mem_map.1 (List.mem_of_mem_filter h) with ⟨c, _, hc⟩
          rw [← hc]; exact pyLower_pyLower c
      have hfilter : t.filter (fun c => !isPunct c) = t := by
        rw [List.filter_eq_self]
        intro d hd
        rcases hmem d hd with h | h
        · subst h; decide
        · have hx := List.of_mem_filter h
          exact hx
      rw [hlower, hfilter, htdef, splitWs_joinWords hwords]

/- ### Claim C8: fingerprint equality vs. (text, note, location) triples -/

/-- Claim C8, counterexample: two highlights with distinct
(text, note-or-empty, location-or-empty) triples whose digest inputs — and
hence whose MD5 fingerprints — coincide, because a field may itself contain
the separator `"|"`: `("a|b", –, "c")` and `("a", –, "b|c")` both hash
`"a|b|c|"`.  This refutes the right-to-left direction of the claimed iff. -/
theorem highlight_hash_not_injective_on_triples :
    highlight_hash ⟨lit "a|b", none, some (lit "c")⟩ =
      highlight_hash ⟨lit "a", none, some (lit "b|c")⟩ ∧
    fpTriple ⟨lit "a|b", none, some (lit "c")⟩ ≠
      fpTriple ⟨lit "a", none, some (lit "b|c")⟩ := by
  constructor
  · decide
  · decide

/-- Claim C8 (amended): equal (text, note-or-empty, location-or-empty)
triples give equal fingerprints; the converse fails when a field contains
the separator (see the counterexample above). -/
theorem highlight_hash_eq_of_triple_eq (h1 h2 : Highlight)
    (h : fpTriple h1 = fpTriple h2) : highlight_hash h1 = highlight_hash h2 := by
  unfold fpTriple at h
  unfold highlight_hash
  obtain ⟨ht, hrest⟩ := Prod.mk.injEq .. ▸ h
  obtain ⟨hn, hl⟩ := Prod.mk.injEq .. ▸ hrest
  rw [ht, hn, hl]

/-- Witness for the amended C8 theorem: `note = None` and `note = ""` have the
same triple, and the theorem yields equal fingerprints. -/
theorem highlight_hash_eq_of_triple_eq_witness :
    highlight_hash ⟨lit "x", some (lit "120"), none⟩ =
      highlight_hash ⟨lit "x", some (lit "120"), some []⟩ :=
  highlight_hash_eq_of_triple_eq _ _ (by decide)

/- ### JSON values and HTTP responses -/

/-- JSON values as decoded by `json.loads` / `response.json()`.  Python
`None` and JSON `null` coincide (`JValue.null`).  Objects are the decoded
dicts in key-insertion order (duplicate keys cannot survive `json.loads`). -/
inductive JValue where
  | null
  | bool (b : Bool)
  | num (n : Int)
  | str (s : Str)
  | arr (elems : List JValue)
  | obj (fields : List (Str × JValue))

/-- `d.get(k)` on a decoded JSON object. -/
def jLookup : List (Str × JValue) → Str → Option JValue
  | [], _ => none
  | p :: rest, k => if p.1 = k then some p.2 else jLookup rest k

/-- Python truthiness of a decoded JSON value. -/
def pyTruthy : JValue → Bool
  | .null => false
  | .bool b => b
  | .num n => n != 0
  | .str s => !s.isEmpty
  | .arr l => !l.isEmpty
  | .obj f => !f.isEmpty

/-- `d.get(k)` restricted to string values: a `"key"` field holding a
non-string is treated as absent (modelling convention, see header). -/
def jStrField : List (Str × JValue) → Str → Option Str
  | fields, k =>
    match jLookup fields k with
    | some (.str s) => some s
    | _ => none

/-- An HTTP response as the script observes it: status code, decoded JSON
body (`none` when `.json()` would raise), and the three headers the script
reads.  `requests` header lookup is case-insensitive, so the two lookups
`headers.get("Location") or headers.get("location")` observe one value. -/
structure Resp where
  status : Nat := 200
  body : Option JValue := some (.obj [])
  location : Option Str := none
  lastModifiedVersion : Option Str := none
  lastModified : Option Str := none

/-- `_FakeResp` (line 62): the fixed stand-in returned by the dry-run gate:
status 200, empty-dict body, no headers. -/
def fakeResp : Resp := {}

/-- Python `s.strip()` (ASCII-whitespace model). -/
def pyStrip (s : Str) : Str :=
  ((s.dropWhile (fun c => isWs c)).reverse.dropWhile (fun c => isWs c)).reverse

/-- Does `l` start with `pat`? -/
def leadsWith : Str → Str → Bool
  | [], _ => true
  | _ :: _, [] => false
  | p :: ps, c :: cs => p == c && leadsWith ps cs

/-- Python `pat in l` (substring containment). -/
def hasSub (pat : Str) : Str → Bool
  | [] => leadsWith pat []
  | c :: rest => leadsWith pat (c :: rest) || hasSub pat rest

/-- The suffix of `l` after the last occurrence of `pat`
(`l.rsplit(pat, 1)[-1]`); `l` itself when `pat` does not occur. -/
def afterLast (pat : Str) : Str → Str
  | [] => []
  | c :: rest =>
    if hasSub pat rest then afterLast pat rest
    else if leadsWith pat (c :: rest) then (c :: rest).drop pat.length
    else c :: rest

/-- Scan of `data["successful"].items()` (lines 237–240): the first value
that is a dict with a truthy `"key"`, or a non-empty string, wins. -/
def succScan : List (Str × JValue) → Option Str
  | [] => none
  | (_, v) :: rest =>
    match v with
    | .obj vf =>
      match jStrField vf (lit "key") with
      | some s => if s.isEmpty then succScan rest else some s
      | none => succScan rest
    | .str s => if s.isEmpty then succScan rest else some s
    | _ => succScan rest

/-- `extract_created_key` (line 232), the faithful port: try the structured
`successful` map, then the first element of a list body (key directly or
under `data`), then the `Location` header (trailing segment after the last
`/items/`, stripped); `none` when everything fails.  Total by construction:
the Python original catches the only possible exception (`.json()`). -/
def extract_created_key (r : Resp) : Option Str :=
  let data := r.body.getD JValue.null
  let fromSucc : Option Str :=
    match data with
    | .obj fields =>
      match jLookup fields (lit "successful") with
      | some (.obj sf) => succScan sf
      | _ => none
    | _ => none
  match fromSucc with
  | some k => some k
  | none =>
    let fromList : Option Str :=
      match data with
      | .arr (first :: _) =>
        match first with
        | .obj ff =>
          match jStrField ff (lit "key") with
          | some s =>
            if s.isEmpty then
              match jLookup ff (lit "data") with
              | some (.obj df) =>
                match jStrField df (lit "key") with
                | some s' => if s'.isEmpty then none else some s'
                | none => none
              | _ => none
            else some s
          | none =>
            match jLookup ff (lit "data") with
            | some (.obj df) =>
              match jStrField df (lit "key") with
              | some s' => if s'.isEmpty then none else some s'
              | none => none
            | _ => none
        | _ => none
      | _ => none
    match fromList with
    | some k => some k
    | none =>
      match r.location with
      | some l =>
        if !l.isEmpty && hasSub (lit "/items/") l then
          some (pyStrip (afterLast (lit "/items/") l))
        else none
      | none => none

/- The three extraction strategies of spec §4.4 step 4 / §9, stated
separately so the prioritized-composition shape of the code is a theorem. -/

/-- Spec strategy (a): structured success map keyed by submission index. -/
def stratSuccessMap (r : Resp) : Option Str :=
  match r.body.getD JValue.null with
  | .obj fields =>
    match jLookup fields (lit "successful") with
    | some (.obj sf) => succScan sf
    | _ => none
  | _ => none

/-- Spec strategy (b): first element of a list response exposing a key field
directly or nested under a `data` field. -/
def stratFirstListElem (r : Resp) : Option Str :=
  match r.body.getD JValue.null with
  | .arr (first :: _) =>
    match first with
    | .obj ff =>
      match jStrField ff (lit "key") with
      | some s =>
        if s.isEmpty then
          match jLookup ff (lit "data") with
          | some (.obj df) =>
            match jStrField df (lit "key") with
            | some s' => if s'.isEmpty then none else some s'
            | none => none
          | _ => none
        else some s
      | none =>
        match jLookup ff (lit "data") with
        | some (.obj df) =>
          match jStrField df (lit "key") with
          | some s' => if s'.isEmpty then none else some s'
          | none => none
        | _ => none
    | _ => none
  | _ => none

/-- Spec strategy (c): location-style response header, trailing path
segment. -/
def stratLocationHeader (r : Resp) : Option Str :=
  match r.location with
  | some l =>
    if !l.isEmpty && hasSub (lit "/items/") l then
      some (pyStrip (afterLast (lit "/items/") l))
    else none
  | none => none

/-- Claim C4: `extract_created_key` is exactly the prioritized composition of
the three total extraction strategies — success map, then first list
element, then location header — and in particular returns `none` exactly
when all three do.  (Each strategy is a total Lean function; the Python
original catches the only statement that can raise.) -/
theorem extract_created_key_eq_strategies (r : Resp) :
    extract_created_key r =
      ((stratSuccessMap r).orElse fun _ =>
        ((stratFirstListElem r).orElse fun _ => stratLocationHeader r)) := by
  unfold extract_created_key stratSuccessMap stratFirstListElem stratLocationHeader
  cases hb : r.body.getD JValue.null <;>
    simp only [] <;>
    cases h1 : (match r.location with
      | some l =>
        if !l.isEmpty && hasSub (lit "/items/") l then
          some (pyStrip (afterLast (lit "/items/") l))
        else none
      | none => (none : Option Str)) <;>
    first
      | rfl
      | (split <;> simp_all [Option.orElse])

/- ### Journal load (`load_sent_log`, line 102) -/

/-- State of a sent-log file as `load_sent_log` can observe it:
missing, unreadable (read error or JSON syntax error — both are caught by
the same `except`), or successfully parsed to a JSON value. -/
inductive FileState where
  | missing
  | unreadable
  | parsed (v : JValue)

/-- Python `{**fallback, **data}` on decoded JSON objects: fallback entries
in order, overridden in place by `data`, then `data`'s new keys appended. -/
def pyMergeObj (fb da : List (Str × JValue)) : List (Str × JValue) :=
  fb.map (fun p => (p.1, (jLookup da p.1).getD p.2)) ++
    da.filter (fun p => (jLookup fb p.1).isNone)

/-- `dict.setdefault(k, d)` at the JSON level. -/
def jSetdefault (fields : List (Str × JValue)) (k : Str) (d : JValue) :
    List (Str × JValue) :=
  match jLookup fields k with
  | some _ => fields
  | none => fields ++ [(k, d)]

/-- `load_sent_log` (line 102).  The primary read defaults to `{}` when the
file is missing or raises; the fallback read is merged underneath the
primary (`{**fallback, **data}`), with any exception — including the
`TypeError` of unpacking a non-dict — swallowed by `pass`; finally
`setdefault` installs the `_items` / `_done_titles` defaults.  That last
step is OUTSIDE every `try`: when the primary file parses to a non-object
JSON value, `data.setdefault` raises `AttributeError` and the run aborts. -/
def load_sent_log (primary fallback : FileState) : Except String JValue :=
  let data := match primary with
    | .parsed v => v
    | _ => JValue.obj []
  let data := match fallback with
    | .parsed fv =>
      match fv, data with
      | .obj ff, .obj df => JValue.obj (pyMergeObj ff df)
      | _, _ => data
    | _ => data
  match data with
  | .obj fields =>
    .ok (.obj (jSetdefault (jSetdefault fields (lit "_items") (.obj []))
      (lit "_done_titles") (.arr [])))
  | _ => .error "AttributeError: setdefault on non-dict sent-log"

/-- Claim C7 (code behavior at the failing input): a primary sent-log file
whose content is the JSON text `[]` — valid JSON, but not an object —
survives both `try` blocks and then crashes the run at
`data.setdefault("_items", {})` with an `AttributeError`, so a merely
malformed journal DOES abort the run, contradicting the claim.  For
contrast, the same theorem also records that an unreadable/missing pair is
handled (treated as empty with the defaults installed) and that a
successful double load merges with primary precedence. -/
theorem load_sent_log_crashes_on_nondict_primary :
    load_sent_log (.parsed (.arr [])) .missing =
      .error "AttributeError: setdefault on non-dict sent-log" ∧
    load_sent_log .unreadable .missing =
      .ok (.obj [(lit "_items", .obj []), (lit "_done_titles", .arr [])]) ∧
    load_sent_log (.parsed (.obj [(lit "k", .str (lit "primary"))]))
        (.parsed (.obj [(lit "k", .str (lit "fb")), (lit "extra", .num 1)])) =
      .ok (.obj [(lit "k", .str (lit "primary")), (lit "extra", .num 1),
        (lit "_items", .obj []), (lit "_done_titles", .arr [])]) := by
  refine ⟨rfl, rfl, ?_⟩
  rfl

/- ### The sent-log, observable effects, and the run monad -/

/-- Structured view of the in-memory sent-log dict after `load_sent_log`:
`_items` (normalized title → cached remote key), `_done_titles`, and the
per-title fingerprint lists stored under the raw title string (the script
keeps them in the same dict; titles are assumed distinct from the two
reserved keys). -/
structure SentLog where
  items : List (Str × Str)
  doneTitles : List Str
  perTitle : List (Str × List Str)
deriving DecidableEq, Repr

/-- Association-list lookup (Python dict `get`). -/
def alookup {α : Type} : List (Str × α) → Str → Option α
  | [], _ => none
  | p :: rest, k => if p.1 = k then some p.2 else alookup rest k

/-- Association-list update (Python dict assignment: replace in place, else
append). -/
def aupdate {α : Type} : List (Str × α) → Str → α → List (Str × α)
  | [], k, v => [(k, v)]
  | p :: rest, k, v => if p.1 = k then (k, v) :: rest else p :: aupdate rest k v

/-- `sent_log[title].append(h_id)` (line 375). -/
def appendFp (lg : SentLog) (t : Str) (hid : Str) : SentLog :=
  { lg with perTitle := aupdate lg.perTitle t ((alookup lg.perTitle t).getD [] ++ [hid]) }

/-- Observable effects of a run: network calls actually issued (GETs are
reads; POST/PUT are the mutating ones), calls blocked by the dry-run gate,
`time.sleep`, and sent-log persistence (primary vault path or the fixed
local fallback). -/
inductive Event where
  | getCollections
  | getSearchItems (q : Str)
  | getItem (key : Str)
  | getRecent (since : Option Nat)
  | blockedPost
  | blockedPut
  | postCollections
  | postItems (payload : List JValue)
  | putItem (key : Str)
  | sleepSec (n : Nat)
  | savePrimary (lg : SentLog)
  | saveFallback (lg : SentLog)

/-- Events that mutate the remote store or persist the journal. -/
def mutating : Event → Bool
  | .postCollections => true
  | .postItems _ => true
  | .putItem _ => true
  | .savePrimary _ => true
  | .saveFallback _ => true
  | _ => false

/-- The run monad: state-passing over the in-memory sent-log plus an
append-only trace of events; `Except.error` is an uncaught Python
exception aborting the run. -/
def M (α : Type) : Type := SentLog → List Event → Except String α × SentLog × List Event

instance : Monad M where
  pure a := fun lg tr => (.ok a, lg, tr)
  bind x f := fun lg tr =>
    match x lg tr with
    | (.ok a, lg', tr') => f a lg' tr'
    | (.error e, lg', tr') => (.error e, lg', tr')

def emit (e : Event) : M Unit := fun lg tr => (.ok (), lg, tr ++ [e])

def getLog : M SentLog := fun lg tr => (.ok lg, lg, tr)

def modifyLog (f : SentLog → SentLog) : M Unit := fun lg tr => (.ok (), f lg, tr)

def throwPy {α : Type} (msg : String) : M α := fun lg tr => (.error msg, lg, tr)

@[simp] theorem run_bind {α β : Type} (x : M α) (f : α → M β) (lg : SentLog)
    (tr : List Event) :
    (x >>= f) lg tr =
      match x lg tr with
      | (.ok a, lg', tr') => f a lg' tr'
      | (.error e, lg', tr') => (.error e, lg', tr') := rfl

@[simp] theorem run_pure {α : Type} (a : α) (lg : SentLog) (tr : List Event) :
    (pure a : M α) lg tr = (.ok a, lg, tr) := rfl

@[simp] theorem run_emit (e : Event) (lg : SentLog) (tr : List Event) :
    emit e lg tr = (.ok (), lg, tr ++ [e]) := rfl

@[simp] theorem run_getLog (lg : SentLog) (tr : List Event) :
    getLog lg tr = (.ok lg, lg, tr) := rfl

@[simp] theorem run_modifyLog (f : SentLog → SentLog) (lg : SentLog) (tr : List Event) :
    modifyLog f lg tr = (.ok (), f lg, tr) := rfl

@[simp] theorem run_throwPy {α : Type} (msg : String) (lg : SentLog) (tr : List Event) :
    throwPy (α := α) msg lg tr = (.error msg, lg, tr) := rfl

/-- The remote store and filesystem as a deterministic oracle: the response
each request would receive, and whether the vault directory is writable
(the fallback path next to the script is assumed writable). -/
structure Env where
  collectionsResp : Resp
  collectionsResp2 : Resp
  postCollectionsResp : Resp
  searchItemsResp : Str → Resp
  getItemResp : Str → Resp
  putItemResp : Str → Resp
  postItemsResp : List JValue → Resp
  getRecentResp : Option Nat → Resp
  vaultWritable : Bool

/-- The module-level run knobs (`DRY_RUN`, `RESUME_ENABLED`, `ONLY_TITLES`,
`BATCH_LIMIT`). -/
structure Cfg where
  dryRun : Bool
  resumeEnabled : Bool
  onlyTitles : List Str
  batchLimit : Nat

/-- `safe_post` (line 68): the dry-run gate around POST.  When simulating it
issues nothing and returns the fixed `_FakeResp`; otherwise the request
goes out and the oracle's response comes back. -/
def safe_post (dry : Bool) (ev : Event) (resp : Resp) : M Resp :=
  if dry then do
    emit .blockedPost
    pure fakeResp
  else do
    emit ev
    pure resp

/-- `safe_put` (line 74): the dry-run gate around PUT. -/
def safe_put (dry : Bool) (ev : Event) (resp : Resp) : M Resp :=
  if dry then do
    emit .blockedPut
    pure fakeResp
  else do
    emit ev
    pure resp

/-- `for x in r.json()`: what Python iteration observes of a decoded body.
A missing body means `.json()` raised; iterating a dict yields its keys;
iterating a string yields 1-character strings; other values raise
`TypeError`.  (In the dict/string cases the loop bodies below then crash on
`.get`, exactly as Python would — unless the iterable is empty.) -/
def asIterList (body : Option JValue) : Except String (List JValue) :=
  match body with
  | none => .error "ValueError: response body is not valid JSON"
  | some (.arr l) => .ok l
  | some (.obj fields) => .ok (fields.map (fun p => JValue.str p.1))
  | some (.str s) => .ok (s.map (fun c => JValue.str [c]))
  | some _ => .error "TypeError: response body is not iterable"

/- ### Zotero collection handling (`get_or_create_collection`, line 169) -/

/-- The scan `for coll in r.json(): if coll.get("data",{}).get("name") == name:
return coll.get("key")` — outer `some` means a name match was found (the
function returns immediately, key present or not). -/
def scanCollections (name : Str) : List JValue → Except String (Option (Option Str))
  | [] => .ok none
  | coll :: rest =>
    match coll with
    | .obj cf =>
      match (jLookup cf (lit "data")).getD (.obj []) with
      | .obj df =>
        let isMatch : Bool :=
          match jLookup df (lit "name") with
          | some (.str s) => s == name
          | _ => false
        if isMatch then .ok (some (jStrField cf (lit "key")))
        else scanCollections name rest
      | _ => .error "AttributeError: get on non-dict data"
    | _ => .error "AttributeError: get on non-dict collection"

/-- The creation half of `get_or_create_collection` (lines 175–185), reached
both when the listing GET fails and when no name matches: in dry-run report
and return `None` (before any POST); otherwise POST the new collection and
re-list to find its key, returning `None` on any failure. -/
def createCollectionPath (env : Env) (name : Str) (dry : Bool) : M (Option Str) := do
  if dry then pure none
  else do
    let r ← safe_post dry .postCollections env.postCollectionsResp
    if r.status = 200 ∨ r.status = 201 then do
      emit .getCollections
      let r2 := env.collectionsResp2
      if r2.status = 200 then
        match asIterList r2.body with
        | .error e => throwPy e
        | .ok colls =>
          match scanCollections name colls with
          | .error e => throwPy e
          | .ok (some k) => pure k
          | .ok none => pure none
      else pure none
    else pure none

/-- `get_or_create_collection` (line 169). -/
def get_or_create_collection (env : Env) (name : Str) (dry : Bool) : M (Option Str) := do
  emit .getCollections
  let r := env.collectionsResp
  if r.status = 200 then
    match asIterList r.body with
    | .error e => throwPy e
    | .ok colls =>
      match scanCollections name colls with
      | .error e => throwPy e
      | .ok (some k) => pure k
      | .ok none => createCollectionPath env name dry
  else createCollectionPath env name dry

/- ### Item search and the shared title/author match (lines 205–268) -/

/-- The author part of the match: collect
`[c.get("lastName","") for c in creators if c.get("creatorType")=="author"]`,
crashing exactly where Python would (non-dict creator, non-string lastName
of an author creator). -/
def creatorNamesList : List JValue → Except String (List Str)
  | [] => .ok []
  | c :: rest =>
    match c with
    | .obj cf =>
      let isAuthor : Bool :=
        match jLookup cf (lit "creatorType") with
        | some (.str s) => s == lit "author"
        | _ => false
      if isAuthor then
        match (jLookup cf (lit "lastName")).getD (.str []) with
        | .str ln =>
          match creatorNamesList rest with
          | .ok tailNames => .ok (ln :: tailNames)
          | .error e => .error e
        | _ => .error "TypeError: join on non-string lastName"
      else creatorNamesList rest
    | _ => .error "AttributeError: get on non-dict creator"

/-- `" ".join(...)` over the author last-names of `data.get("creators", [])`. -/
def creatorsNames (df : List (Str × JValue)) : Except String Str :=
  match (jLookup df (lit "creators")).getD (.arr []) with
  | .arr cs =>
    match creatorNamesList cs with
    | .ok names => .ok (joinWords names)
    | .error e => .error e
  | .obj [] => .ok []
  | .str [] => .ok []
  | _ => .error "TypeError: creators is not iterable"

/-- The candidate scan shared verbatim by `search_item_by_title` (lines
212–222) and `fetch_recent_and_match` (lines 258–268): first candidate with
an exactly matching NormalizedTitle (and, when an author is wanted, whose
joined author last-names contain the NormalizedAuthor) wins; the winner's
key is cached into `_items` and returned — Python returns the raw
`data.get("key")`, so a match with a missing/falsy key still stops the scan
and yields a falsy result, observationally `none`. -/
def matchCandidates (wantT wantA : Str) : List JValue → M (Option Str)
  | [] => pure none
  | it :: rest =>
    match it with
    | .obj itf =>
      match (jLookup itf (lit "data")).getD (.obj itf) with
      | .obj df =>
        let keyOpt := jStrField df (lit "key")
        let matched : M (Option Str) := do
          modifyLog (fun lg => { lg with items := aupdate lg.items wantT (keyOpt.getD []) })
          pure (match keyOpt with
            | some s => if s.isEmpty then none else some s
            | none => none)
        match (jLookup df (lit "title")).getD (.str []) with
        | .str titleVal =>
          if normalize_title titleVal ≠ wantT then matchCandidates wantT wantA rest
          else if !wantA.isEmpty then
            match creatorsNames df with
            | .error e => throwPy e
            | .ok names =>
              if hasSub wantA (normalize_author names) then matched
              else matchCandidates wantT wantA rest
          else matched
        | _ => throwPy "AttributeError: lower on non-string title"
      | _ => throwPy "AttributeError: get on non-dict data"
    | _ => throwPy "AttributeError: get on non-dict candidate"

/-- `search_item_by_title` (line 205): cache hit first (truthy cached value
returns with no remote call), then a title-mode search GET and the shared
candidate scan. -/
def search_item_by_title (env : Env) (title : Str) (author : Option Str) :
    M (Option Str) := do
  let norm_t := normalize_title title
  let lg ← getLog
  let cached := alookup lg.items norm_t
  if (match cached with | some k => !k.isEmpty | none => false) then pure cached
  else do
    emit (.getSearchItems title)
    let r := env.searchItemsResp title
    if r.status ≠ 200 then pure none
    else
      match asIterList r.body with
      | .error e => throwPy e
      | .ok its => matchCandidates norm_t (normalize_author (author.getD [])) its

/-- Python `int(s)` on a string: optional surrounding whitespace, optional
sign, at least one digit (underscore grouping not modelled). -/
def digitsValAux : Str → Nat → Option Nat
  | [], acc => some acc
  | c :: rest, acc =>
    if 48 ≤ c ∧ c ≤ 57 then digitsValAux rest (acc * 10 + (c - 48)) else none

def pyIntOfStr (s : Str) : Option Int :=
  match pyStrip s with
  | [] => none
  | 43 :: rest => match rest with
    | [] => none
    | _ => (digitsValAux rest 0).map Int.ofNat
  | 45 :: rest => match rest with
    | [] => none
    | _ => (digitsValAux rest 0).map (fun n => -(Int.ofNat n))
  | t => (digitsValAux t 0).map Int.ofNat

/-- `fetch_recent_and_match` (line 251): `since = max(int(lmv) - 3, 0)` when
`lmv` parses (any exception, including `int(None)`, leaves `since` unset),
then a recency-sorted listing GET and the same candidate scan as the title
search. -/
def fetch_recent_and_match (env : Env) (title : Str) (author : Option Str)
    (lmv : Option Str) : M (Option Str) := do
  let since : Option Nat :=
    match lmv with
    | some s =>
      match pyIntOfStr s with
      | some n => some (n - 3).toNat
      | none => none
    | none => none
  emit (.getRecent since)
  let r := env.getRecentResp since
  if r.status ≠ 200 then pure none
  else
    match asIterList r.body with
    | .error e => throwPy e
    | .ok its => matchCandidates (normalize_title title) (normalize_author (author.getD [])) its

/- ### Parent resolution (`find_or_create_book_item`, line 270) -/

/-- Python truthiness of an optional string. -/
def pyTruthyOptStr (o : Option Str) : Bool :=
  match o with
  | some s => !s.isEmpty
  | none => false

/-- The creation payload `{"itemType": "book", "title": ..., "creators": ...,
["collections": [ck]]}` (lines 277–279). -/
def bookPayload (title : Str) (author : Option Str) (ck : Option Str) : JValue :=
  let creators : JValue :=
    if pyTruthyOptStr author then
      .arr [.obj [(lit "creatorType", .str (lit "author")), (lit "firstName", .str []),
        (lit "lastName", .str (author.getD []))]]
    else .arr []
  let base := [(lit "itemType", .str (lit "book")), (lit "title", .str title),
    (lit "creators", creators)]
  if pyTruthyOptStr ck then .obj (base ++ [(lit "collections", .arr [.str (ck.getD [])])])
  else .obj base

/-- `for attempt in range(3): time.sleep(1.0 + attempt); ...` (lines
288–291), called with the attempt list `[0, 1, 2]`: sleep 1s/2s/3s, each
attempt re-running the recency listing + match, stopping at the first
truthy key. -/
def recoverLoop (env : Env) (title : Str) (author : Option Str) (lmv : Option Str) :
    List Nat → M (Option Str)
  | [] => pure none
  | a :: rest => do
    emit (.sleepSec (1 + a))
    let k? ← fetch_recent_and_match env title author lmv
    match k? with
    | some k => pure (some k)
    | none => recoverLoop env title author lmv rest

/-- `find_or_create_book_item` (line 270): search (with cache), dry-run
short-circuit before any POST, create, extract the key, else bounded
recency-retry with `lmv` taken from the creation response's
`Last-Modified-Version` (or `Last-Modified`) header. -/
def find_or_create_book_item (env : Env) (title : Str) (author : Option Str)
    (ck : Option Str) (dry : Bool) : M (Option Str) := do
  let k? ← search_item_by_title env title author
  match k? with
  | some k => pure (some k)
  | none =>
    if dry then pure none
    else do
      let payload := [bookPayload title author ck]
      let r ← safe_post dry (.postItems payload) (env.postItemsResp payload)
      if r.status ≠ 200 ∧ r.status ≠ 201 then pure none
      else
        match extract_created_key r with
        | some ckey => do
          modifyLog (fun lg => { lg with items := aupdate lg.items (normalize_title title) ckey })
          pure (some ckey)
        | none => do
          let lmv : Option Str :=
            match r.lastModifiedVersion with
            | some s => if !s.isEmpty then some s else r.lastModified
            | none => r.lastModified
          recoverLoop env title author lmv [0, 1, 2]

/- ### Child records, collection membership, and persistence -/

/-- `note_html_from_highlight` (line 309). -/
def note_html_from_highlight (h : Highlight) : Str :=
  lit "<blockquote>" ++ h.text ++ lit "</blockquote>" ++
  (match h.note with
   | some n => if !n.isEmpty then lit "<p><em>Note: " ++ n ++ lit "</em></p>" else []
   | none => []) ++
  (match h.location with
   | some l => if !l.isEmpty then lit "<p><small>Location: " ++ l ++ lit "</small></p>" else []
   | none => [])

/-- The payload of `create_note_for_item` (line 295). -/
def notePayload (itemKey html : Str) : List JValue :=
  [.obj [(lit "itemType", .str (lit "note")), (lit "parentItem", .str itemKey),
    (lit "note", .str html)]]

/-- `create_note_for_item` (line 294): build the payload, short-circuit in
dry-run, otherwise POST through the gate; a non-2xx status is only printed
— the function returns nothing either way, so the caller cannot observe
failure. -/
def create_note_for_item (env : Env) (itemKey html : Str) (dry : Bool) : M Unit := do
  let payload := notePayload itemKey html
  if dry then pure ()
  else do
    let r ← safe_post dry (.postItems payload) (env.postItemsResp payload)
    if r.status ≠ 200 ∧ r.status ≠ 201 then pure () else pure ()

/-- `ensure_item_in_collection` (line 187): fetch the item, no-op when the
fetch fails or the collection is already present, otherwise PUT the updated
record (the PUT body is the fetched `data` with the collection appended;
only the key is recorded in the event). -/
def ensure_item_in_collection (env : Env) (itemKey ckey : Str) (dry : Bool) : M Unit := do
  emit (.getItem itemKey)
  let r := env.getItemResp itemKey
  if r.status ≠ 200 then pure ()
  else
    match r.body with
    | none => throwPy "ValueError: item body is not valid JSON"
    | some (.obj vf) =>
      match (jLookup vf (lit "data")).getD (.obj []) with
      | .obj df =>
        let cols : JValue :=
          match jLookup df (lit "collections") with
          | some c => if pyTruthy c then c else .arr []
          | none => .arr []
        match cols with
        | .arr cl =>
          if cl.any (fun e => match e with | .str s => s == ckey | _ => false) then pure ()
          else
            if dry then pure ()
            else do
              let _ ← safe_put dry (.putItem itemKey) (env.putItemResp itemKey)
              pure ()
        | _ => throwPy "TypeError: collections is not a list"
      | _ => throwPy "AttributeError: get on non-dict data"
    | some _ => throwPy "AttributeError: get on non-dict item body"

/-- `save_sent_log` (line 120): write to the vault when a test write
succeeds, otherwise write the fixed local fallback file and print a
warning; either way the run continues. -/
def save_sent_log (env : Env) (lg : SentLog) : M Unit :=
  if env.vaultWritable then emit (.savePrimary lg) else emit (.saveFallback lg)

/- ### The per-document driver (`__main__`, lines 339–386) -/

/-- The per-highlight loop (lines 368–375): `already` is the snapshot
`set(sent_log[title])` taken once before the loop; duplicates against the
snapshot are skipped, everything else is sent, and in live mode the
fingerprint is appended to `sent_log[title]` right after the creation call
— unconditionally, whatever the response status was. -/
def syncHighlights (env : Env) (dry : Bool) (title itemKey : Str)
    (already : List Str) : List Highlight → M Unit
  | [] => pure ()
  | h :: rest => do
    let hid := highlight_hash h
    if hid ∈ already then syncHighlights env dry title itemKey already rest
    else do
      let html := note_html_from_highlight h
      create_note_for_item env itemKey html dry
      if dry then pure () else modifyLog (fun lg => appendFp lg title hid)
      syncHighlights env dry title itemKey already rest

/-- The commit step (lines 377–382): in live mode append the normalized
title to `_done_titles` (if new) and persist the sent-log before the next
document. -/
def commitDoc (env : Env) (dry : Bool) (norm_t : Str) : M Unit :=
  if dry then pure ()
  else do
    modifyLog (fun lg =>
      if norm_t ∈ lg.doneTitles then lg
      else { lg with doneTitles := lg.doneTitles ++ [norm_t] })
    let lg ← getLog
    save_sent_log env lg

/-- Highlight loop followed by the commit step — the tail of the
per-document body once the parent is resolved. -/
def childrenAndCommit (env : Env) (dry : Bool) (title norm_t itemKey : Str)
    (hs : List Highlight) (already : List Str) : M Unit := do
  syncHighlights env dry title itemKey already hs
  commitDoc env dry norm_t

/-- One parsed markdown document. -/
structure Doc where
  title : Option Str
  author : Option Str
  highlights : List Highlight
deriving DecidableEq, Repr

/-- `title_matches_filters` (line 141): empty allow-list matches all; else
case-insensitive substring containment against any filter entry. -/
def title_matches_filters (onlyTitles : List Str) (title : Str) : Bool :=
  onlyTitles.isEmpty ||
    onlyTitles.any (fun sub => hasSub (sub.map pyLower) (title.map pyLower))

/-- Terminal state of one document in the driver (spec §4.5). -/
inductive DocOutcome where
  | filtered
  | resumeSkipped
  | parentFailed
  | processed
deriving DecidableEq, Repr

/-- The per-document body of the main loop (lines 340–382): title presence,
title filter, resume skip (live + resume + already done), parent
resolution, optional collection membership, the `setdefault`/snapshot pair,
the highlight loop, and the commit step. -/
def processDoc (cfg : Cfg) (env : Env) (ck : Option Str) (doc : Doc) : M DocOutcome := do
  match doc.title with
  | none => pure .filtered
  | some title =>
    if title.isEmpty then pure .filtered
    else if !title_matches_filters cfg.onlyTitles title then pure .filtered
    else do
      let norm_t := normalize_title title
      let lg ← getLog
      if cfg.resumeEnabled && !cfg.dryRun && decide (norm_t ∈ lg.doneTitles) then
        pure .resumeSkipped
      else do
        let k? ← find_or_create_book_item env title doc.author ck cfg.dryRun
        match k? with
        | none => pure .parentFailed
        | some itemKey => do
          if pyTruthyOptStr ck && !cfg.dryRun then
            ensure_item_in_collection env itemKey (ck.getD []) cfg.dryRun
          else pure ()
          modifyLog (fun lg =>
            { lg with perTitle :=
                match alookup lg.perTitle title with
                | some _ => lg.perTitle
                | none => lg.perTitle ++ [(title, [])] })
          let lg1 ← getLog
          let already := (alookup lg1.perTitle title).getD []
          childrenAndCommit env cfg.dryRun title norm_t itemKey doc.highlights already
          pure .processed

/-- The document loop (lines 339–386) with the matched/processed counters
and the batch cap checked after each processed document. -/
def mainLoop (cfg : Cfg) (env : Env) (ck : Option Str) :
    List Doc → Nat → Nat → M (Nat × Nat)
  | [], m, p => pure (m, p)
  | d :: rest, m, p => do
    let o ← processDoc cfg env ck d
    let m' := if o = .filtered then m else m + 1
    match o with
    | .processed =>
      if cfg.batchLimit ≠ 0 ∧ p + 1 ≥ cfg.batchLimit then pure (m', p + 1)
      else mainLoop cfg env ck rest m' (p + 1)
    | _ => mainLoop cfg env ck rest m' p

/-- The whole run after the sent-log is loaded: collection setup, then the
document loop (the live-confirmation prompt and markdown parsing are
external collaborators). -/
def mainRun (cfg : Cfg) (env : Env) (docs : List Doc) : M (Nat × Nat) := do
  let ck ← get_or_create_collection env (lit "Books") cfg.dryRun
  mainLoop cfg env ck docs 0 0

/- ### Concrete fixtures for claim instances -/

/-- A freshly defaulted sent-log (what `load_sent_log` yields on first run). -/
def emptyLog : SentLog := ⟨[], [], []⟩

def cfgLive : Cfg := ⟨false, true, [], 0⟩

def cfgDry : Cfg := ⟨true, true, [], 0⟩

/-- A neutral remote oracle: empty collection list, empty search results,
empty recency listings, failing writes, writable vault. -/
def baseEnv : Env :=
  { collectionsResp := { status := 404, body := some (.arr []) }
    collectionsResp2 := { status := 404, body := some (.arr []) }
    postCollectionsResp := { status := 500, body := some (.arr []) }
    searchItemsResp := fun _ => { status := 200, body := some (.arr []) }
    getItemResp := fun _ => { status := 404, body := some (.obj []) }
    putItemResp := fun _ => { status := 204, body := some (.obj []) }
    postItemsResp := fun _ => { status := 500, body := some (.str (lit "server error")) }
    getRecentResp := fun _ => { status := 200, body := some (.arr []) }
    vaultWritable := true }

/-- The spec's running example highlight. -/
def h0 : Highlight := ⟨lit "Focus is the new IQ", some (lit "120"), none⟩

def docDW : Doc := ⟨some (lit "Deep Work"), some (lit "Cal Newport"), [h0]⟩

/-- Sent-log with the parent key for "deep work" already cached. -/
def logC1 : SentLog := ⟨[(lit "deep work", lit "KEY1")], [], []⟩

/-- The sent-log after the C1 run: fingerprint recorded, title marked done. -/
def logC1final : SentLog :=
  ⟨[(lit "deep work", lit "KEY1")], [lit "deep work"],
   [(lit "Deep Work", [highlight_hash h0])]⟩

/-- Claim C1 (code behavior at the failing input): live run, parent key
cached, one new highlight; the child-creation POST answers status 500 —
yet the fingerprint is appended to `sent_log[title]` and the document is
committed, because `create_note_for_item` returns nothing and the caller
(line 374) marks the highlight sent unconditionally after the call.  The
claimed iff ("marked sent iff the creation call did not fail") is violated
by the code; the highlight is never retried. -/
theorem child_failure_still_marked_sent :
    processDoc cfgLive baseEnv none docDW logC1 [] =
      (.ok .processed, logC1final,
        [Event.postItems (notePayload (lit "KEY1") (note_html_from_highlight h0)),
         Event.savePrimary logC1final]) ∧
    (baseEnv.postItemsResp (notePayload (lit "KEY1") (note_html_from_highlight h0))).status
      = 500 ∧
    alookup logC1final.perTitle (lit "Deep Work") = some [highlight_hash h0] := by
  refine ⟨?_, rfl, rfl⟩
  rfl

/-- Search oracle that finds "Deep Work" with key `K7`. -/
def envSearchHit : Env :=
  { baseEnv with searchItemsResp := fun _ =>
      { status := 200
        body := some (.arr [.obj [(lit "data",
          .obj [(lit "key", .str (lit "K7")), (lit "title", .str (lit "Deep Work"))])]]) } }

/-- Claim C2, counterexample: a DRY_RUN run whose title search finds a match
DOES mutate the in-memory journal — `search_item_by_title` caches the found
key into `_items` (line 221) and the per-title `setdefault` (line 364) adds
an empty entry, neither guarded by the simulation flag — so "never mutates
the Journal" is false as stated.  (No POST/PUT is issued and nothing is
persisted; the amended theorem below proves that part for every input.) -/
theorem dry_run_mutates_in_memory_journal :
    cfgDry.dryRun = true ∧
    (mainRun cfgDry envSearchHit [⟨some (lit "Deep Work"), none, []⟩] emptyLog []).2.1 =
      ⟨[(lit "deep work", lit "K7")], [], [(lit "Deep Work", [])]⟩ ∧
    (mainRun cfgDry envSearchHit [⟨some (lit "Deep Work"), none, []⟩] emptyLog []).2.1 ≠
      emptyLog := by
  refine ⟨rfl, rfl, ?_⟩
  decide

/- ### No action of a dry run mutates remote state or persists the journal -/

/-- Every event an action appends to the trace satisfies `mutating e = false`
(events already present are untouched: the trace is append-only). -/
def NoNewMut {α : Type} (x : M α) : Prop :=
  ∀ lg tr e, e ∈ (x lg tr).2.2 → e ∈ tr ∨ mutating e = false

theorem noNewMut_pure {α : Type} (a : α) : NoNewMut (pure a : M α) := by
  intro lg tr e he
  exact Or.inl he

theorem noNewMut_bind {α β : Type} {x : M α} {f : α → M β}
    (hx : NoNewMut x) (hf : ∀ a, NoNewMut (f a)) : NoNewMut (x >>= f) := by
  intro lg tr e he
  rw [run_bind] at he
  rcases hxr : x lg tr with ⟨res, lg1, tr1⟩
  rw [hxr] at he
  have hsub : e ∈ tr1 → e ∈ tr ∨ mutating e = false := by
    intro h1
    have := hx lg tr e
    rw [hxr] at this
    exact this h1
  cases res with
  | ok a =>
    rcases hf a lg1 tr1 e he with h1 | h1
    · exact hsub h1
    · exact Or.inr h1
  | error msg => exact hsub he

theorem noNewMut_emit {e0 : Event} (h : mutating e0 = false) : NoNewMut (emit e0) := by
  intro lg tr e he
  rw [run_emit] at he
  rcases List.mem_append.1 he with h1 | h1
  · exact Or.inl h1
  · rw [List.mem_singleton] at h1
    subst h1
    exact Or.inr h

theorem noNewMut_getLog : NoNewMut getLog := by
  intro lg tr e he
  exact Or.inl he

theorem noNewMut_modifyLog (f : SentLog → SentLog) : NoNewMut (modifyLog f) := by
  intro lg tr e he
  exact Or.inl he

theorem noNewMut_throwPy {α : Type} (msg : String) : NoNewMut (throwPy (α := α) msg) := by
  intro lg tr e he
  exact Or.inl he

theorem noNewMut_ite {α : Type} {c : Prop} [Decidable c] {x y : M α}
    (hx : NoNewMut x) (hy : NoNewMut y) : NoNewMut (if c then x else y) := by
  split <;> assumption

theorem noNewMut_matchCandidates (wantT wantA : Str) (its : List JValue) :
    NoNewMut (matchCandidates wantT wantA its) := by
  induction its with
  | nil => exact noNewMut_pure _
  | cons it rest ih =>
    unfold matchCandidates
    repeat' split
    all_goals
      first
        | exact noNewMut_throwPy _
        | exact ih
        | exact noNewMut_bind (noNewMut_modifyLog _) (fun _ => noNewMut_pure _)

theorem noNewMut_search (env : Env) (title : Str) (author : Option Str) :
    NoNewMut (search_item_by_title env title author) := by
  unfold search_item_by_title
  apply noNewMut_bind noNewMut_getLog
  intro lg
  apply noNewMut_ite (noNewMut_pure _)
  refine noNewMut_bind (noNewMut_emit ?_) ?_
  · rfl
  intro _
  apply noNewMut_ite (noNewMut_pure _)
  split
  · exact noNewMut_throwPy _
  · exact noNewMut_matchCandidates _ _ _

theorem noNewMut_fetch_recent (env : Env) (title : Str) (author : Option Str)
    (lmv : Option Str) : NoNewMut (fetch_recent_and_match env title author lmv) := by
  unfold fetch_recent_and_match
  refine noNewMut_bind (noNewMut_emit ?_) ?_
  · rfl
  intro _
  apply noNewMut_ite (noNewMut_pure _)
  split
  · exact noNewMut_throwPy _
  · exact noNewMut_matchCandidates _ _ _

theorem noNewMut_recoverLoop (env : Env) (title : Str) (author : Option Str)
    (lmv : Option Str) (attempts : List Nat) :
    NoNewMut (recoverLoop env title author lmv attempts) := by
  induction attempts with
  | nil => exact noNewMut_pure _
  | cons a rest ih =>
    unfold recoverLoop
    refine noNewMut_bind (noNewMut_emit ?_) ?_
    · rfl
    intro _
    apply noNewMut_bind (noNewMut_fetch_recent _ _ _ _)
    intro k
    cases k with
    | some k => exact noNewMut_pure _
    | none => exact ih

theorem noNewMut_safe_post_dry (ev : Event) (resp : Resp) :
    NoNewMut (safe_post true ev resp) := by
  unfold safe_post
  rw [if_pos rfl]
  exact noNewMut_bind (noNewMut_emit rfl) (fun _ => noNewMut_pure _)

theorem noNewMut_safe_put_dry (ev : Event) (resp : Resp) :
    NoNewMut (safe_put true ev resp) := by
  unfold safe_put
  rw [if_pos rfl]
  exact noNewMut_bind (noNewMut_emit rfl) (fun _ => noNewMut_pure _)

theorem noNewMut_find_or_create_dry (env : Env) (title : Str) (author : Option Str)
    (ck : Option Str) : NoNewMut (find_or_create_book_item env title author ck true) := by
  unfold find_or_create_book_item
  apply noNewMut_bind (noNewMut_search _ _ _)
  intro k
  cases k with
  | some k => exact noNewMut_pure _
  | none =>
    apply noNewMut_ite (noNewMut_pure _)
    apply noNewMut_bind (noNewMut_safe_post_dry _ _)
    intro r
    apply noNewMut_ite (noNewMut_pure _)
    split
    · exact noNewMut_bind (noNewMut_modifyLog _) (fun _ => noNewMut_pure _)
    · exact noNewMut_recoverLoop _ _ _ _ _

theorem noNewMut_create_note_dry (env : Env) (k html : Str) :
    NoNewMut (create_note_for_item env k html true) := by
  unfold create_note_for_item
  split
  · exact noNewMut_pure _
  · refine noNewMut_bind (noNewMut_safe_post_dry _ _) ?_
    intro r
    exact noNewMut_ite (noNewMut_pure _) (noNewMut_pure _)

theorem noNewMut_ensure_dry (env : Env) (k c : Str) :
    NoNewMut (ensure_item_in_collection env k c true) := by
  unfold ensure_item_in_collection
  refine noNewMut_bind (noNewMut_emit ?_) ?_
  · rfl
  intro _
  apply noNewMut_ite (noNewMut_pure _)
  repeat'
    first
      | exact noNewMut_throwPy _
      | exact noNewMut_pure _
      | exact noNewMut_bind (noNewMut_safe_put_dry _ _) (fun _ => noNewMut_pure _)
      | split
      | dsimp only

theorem noNewMut_syncHighlights_dry (env : Env) (t k : Str) (already : List Str)
    (hs : List Highlight) : NoNewMut (syncHighlights env true t k already hs) := by
  induction hs with
  | nil => exact noNewMut_pure _
  | cons h rest ih =>
    unfold syncHighlights
    apply noNewMut_ite ih
    refine noNewMut_bind (noNewMut_create_note_dry _ _ _) ?_
    intro _
    refine noNewMut_bind ?_ ?_
    · first
        | exact noNewMut_pure _
        | exact noNewMut_ite (noNewMut_pure _) (noNewMut_modifyLog _)
    intro _
    exact ih

theorem noNewMut_commitDoc_dry (env : Env) (nt : Str) :
    NoNewMut (commitDoc env true nt) := by
  unfold commitDoc
  rw [if_pos rfl]
  exact noNewMut_pure _

theorem noNewMut_childrenAndCommit_dry (env : Env) (t nt k : Str)
    (hs : List Highlight) (already : List Str) :
    NoNewMut (childrenAndCommit env true t nt k hs already) := by
  unfold childrenAndCommit
  exact noNewMut_bind (noNewMut_syncHighlights_dry _ _ _ _ _)
    (fun _ => noNewMut_commitDoc_dry _ _)

theorem noNewMut_processDoc_dry (resume : Bool) (only : List Str) (batch : Nat)
    (env : Env) (ck : Option Str) (doc : Doc) :
    NoNewMut (processDoc ⟨true, resume, only, batch⟩ env ck doc) := by
  rcases doc with ⟨t?, author, hs⟩
  unfold processDoc
  cases t? with
  | none => exact noNewMut_pure _
  | some title =>
    apply noNewMut_ite (noNewMut_pure _)
    apply noNewMut_ite (noNewMut_pure _)
    apply noNewMut_bind noNewMut_getLog
    intro lg
    apply noNewMut_ite (noNewMut_pure _)
    refine noNewMut_bind (noNewMut_find_or_create_dry _ _ _ _) ?_
    intro k?
    cases k? with
    | none => exact noNewMut_pure _
    | some itemKey =>
      dsimp only
      apply noNewMut_ite
      all_goals
        refine noNewMut_bind ?_ ?_
        · first
            | exact noNewMut_ensure_dry _ _ _
            | exact noNewMut_pure _
        intro _
        refine noNewMut_bind (noNewMut_modifyLog _) ?_
        intro _
        apply noNewMut_bind noNewMut_getLog
        intro lg1
        refine noNewMut_bind (noNewMut_childrenAndCommit_dry _ _ _ _ _ _) ?_
        intro _
        exact noNewMut_pure _

theorem noNewMut_createCollectionPath_dry (env : Env) (name : Str) :
    NoNewMut (createCollectionPath env name true) := by
  unfold createCollectionPath
  apply noNewMut_ite (noNewMut_pure _)
  refine noNewMut_bind (noNewMut_safe_post_dry _ _) ?_
  intro r
  apply noNewMut_ite ?_ (noNewMut_pure _)
  refine noNewMut_bind (noNewMut_emit ?_) ?_
  · rfl
  intro _
  apply noNewMut_ite ?_ (noNewMut_pure _)
  repeat' split
  all_goals first | exact noNewMut_throwPy _ | exact noNewMut_pure _

theorem noNewMut_get_or_create_dry (env : Env) (name : Str) :
    NoNewMut (get_or_create_collection env name true) := by
  unfold get_or_create_collection
  refine noNewMut_bind (noNewMut_emit ?_) ?_
  · rfl
  intro _
  apply noNewMut_ite ?_ (noNewMut_createCollectionPath_dry _ _)
  repeat' split
  all_goals
    first
      | exact noNewMut_throwPy _
      | exact noNewMut_pure _
      | exact noNewMut_createCollectionPath_dry _ _

theorem noNewMut_mainLoop_dry (resume : Bool) (only : List Str) (batch : Nat)
    (env : Env) (ck : Option Str) :
    ∀ docs m p, NoNewMut (mainLoop ⟨true, resume, only, batch⟩ env ck docs m p) := by
  intro docs
  induction docs with
  | nil => intro m p; exact noNewMut_pure _
  | cons d rest ih =>
    intro m p
    unfold mainLoop
    refine noNewMut_bind (noNewMut_processDoc_dry _ _ _ _ _ _) ?_
    intro o
    cases o with
    | filtered => exact ih _ _
    | resumeSkipped => exact ih _ _
    | parentFailed => exact ih _ _
    | processed => exact noNewMut_ite (noNewMut_pure _) (ih _ _)

theorem noNewMut_mainRun_dry (resume : Bool) (only : List Str) (batch : Nat)
    (env : Env) (docs : List Doc) :
    NoNewMut (mainRun ⟨true, resume, only, batch⟩ env docs) := by
  unfold mainRun
  exact noNewMut_bind (noNewMut_get_or_create_dry _ _)
    (fun ck => noNewMut_mainLoop_dry _ _ _ _ _ _ _ _)

/-- Claim C2 (amended): in simulation mode no POST or PUT network call is
issued and the journal is never persisted — every mutating call routes
through the `safe_post` / `safe_put` gate, which in dry-run emits nothing
and returns the fixed `_FakeResp` stand-in — for every oracle, document
list, and starting journal.  (The in-memory journal is NOT invariant, see
the counterexample theorem: search results are cached into `_items` and
per-title entries are created regardless of the flag.) -/
theorem dry_run_never_posts_puts_or_saves (cfg : Cfg) (env : Env) (docs : List Doc)
    (lg : SentLog) (h : cfg.dryRun = true) :
    ((mainRun cfg env docs lg []).2.2).all (fun e => !mutating e) = true := by
  rcases cfg with ⟨dry, resume, only, batch⟩
  cases h
  rw [List.all_eq_true]
  intro e he
  rcases noNewMut_mainRun_dry resume only batch env docs lg [] e he with h1 | h1
  · simp at h1
  · simp [h1]

/-- Witness for the amended C2 theorem at a concrete dry-run input. -/
theorem dry_run_never_posts_puts_or_saves_witness :
    ((mainRun cfgDry baseEnv [docDW] emptyLog []).2.2).all (fun e => !mutating e) = true :=
  dry_run_never_posts_puts_or_saves cfgDry baseEnv [docDW] emptyLog rfl

/- ### Claim C3: bounded retry recovery when the creation response has no key -/

/-- Creation response: success status, empty list body (no key anywhere),
post-creation version header 17. -/
def respC3post : Resp :=
  { status := 200, body := some (.arr []), lastModifiedVersion := some (lit "17") }

/-- Oracle for the recovery scenario: title search finds nothing, creation
succeeds without an extractable key, recency listings stay empty. -/
def envC3 : Env := { baseEnv with postItemsResp := fun _ => respC3post }

theorem searchC3 (lg : SentLog) (tr : List Event)
    (h1 : alookup lg.items (lit "deep work") = none) :
    search_item_by_title envC3 (lit "Deep Work") (some (lit "Cal Newport")) lg tr =
      (.ok none, lg, tr ++ [.getSearchItems (lit "Deep Work")]) := by
  unfold search_item_by_title
  rw [show normalize_title (lit "Deep Work") = lit "deep work" from by decide]
  simp only [run_bind, run_getLog, run_emit, run_pure, h1]
  simp [envC3, baseEnv, asIterList, matchCandidates]

theorem fetchC3 (lg : SentLog) (tr : List Event) :
    fetch_recent_and_match envC3 (lit "Deep Work") (some (lit "Cal Newport"))
      (some (lit "17")) lg tr =
      (.ok none, lg, tr ++ [.getRecent (some 14)]) := by
  unfold fetch_recent_and_match
  dsimp only
  rw [show pyIntOfStr (lit "17") = some 17 from by decide]
  simp [envC3, baseEnv, asIterList, matchCandidates]

theorem findC3 (lg : SentLog) (tr : List Event)
    (h1 : alookup lg.items (lit "deep work") = none) :
    find_or_create_book_item envC3 (lit "Deep Work") (some (lit "Cal Newport"))
      (some (lit "CK")) false lg tr =
      (.ok none, lg, tr ++
        [.getSearchItems (lit "Deep Work"),
         .postItems [bookPayload (lit "Deep Work") (some (lit "Cal Newport")) (some (lit "CK"))],
         .sleepSec 1, .getRecent (some 14), .sleepSec 2, .getRecent (some 14),
         .sleepSec 3, .getRecent (some 14)]) := by
  have hpost : ∀ p, envC3.postItemsResp p = respC3post := fun _ => rfl
  have hex : extract_created_key respC3post = none := rfl
  have hstat : respC3post.status = 200 := rfl
  have hv : respC3post.lastModifiedVersion = some (lit "17") := rfl
  have h17 : (lit "17" : Str) ≠ [] := by decide
  unfold find_or_create_book_item
  rw [run_bind, searchC3 lg tr h1]
  simp [run_bind, run_emit, run_pure, safe_post, hpost, hex, hstat, hv, h17,
    recoverLoop, fetchC3]

/-- Claim C3: when parent creation succeeds (status 200) but no key can be
extracted from the creation response, the resolver performs exactly 3
recovery attempts with linear backoff 1s/2s/3s, each issuing one
recency-filtered listing query with `since = 14` (the response's
`Last-Modified-Version` 17 minus 3, just prior to the pre-creation
version) and re-running the same title/author match; when all fail it
surfaces failure with a single create POST in the whole trace, the document
ends Parent-Failed, and the journal — which is universally quantified here —
is returned unchanged. -/
theorem parent_key_recovery_bounded (lg : SentLog) (tr : List Event)
    (h1 : alookup lg.items (lit "deep work") = none)
    (h2 : lit "deep work" ∉ lg.doneTitles) :
    processDoc cfgLive envC3 (some (lit "CK")) docDW lg tr =
      (.ok .parentFailed, lg, tr ++
        [.getSearchItems (lit "Deep Work"),
         .postItems [bookPayload (lit "Deep Work") (some (lit "Cal Newport")) (some (lit "CK"))],
         .sleepSec 1, .getRecent (some 14), .sleepSec 2, .getRecent (some 14),
         .sleepSec 3, .getRecent (some 14)]) := by
  have hn : normalize_title (lit "Deep Work") = lit "deep work" := by decide
  have hne : (lit "Deep Work").isEmpty = false := rfl
  unfold processDoc docDW
  simp [run_bind, run_getLog, run_pure, cfgLive, hn, hne, decide_eq_false h2,
    title_matches_filters, findC3 lg tr h1]
  rw [if_neg h2, run_bind, findC3 lg tr h1]
  rfl

/-- Witness for the C3 theorem at the empty journal. -/
theorem parent_key_recovery_bounded_witness :
    processDoc cfgLive envC3 (some (lit "CK")) docDW emptyLog [] =
      (.ok .parentFailed, emptyLog,
        [.getSearchItems (lit "Deep Work"),
         .postItems [bookPayload (lit "Deep Work") (some (lit "Cal Newport")) (some (lit "CK"))],
         .sleepSec 1, .getRecent (some 14), .sleepSec 2, .getRecent (some 14),
         .sleepSec 3, .getRecent (some 14)]) :=
  parent_key_recovery_bounded emptyLog [] rfl (by decide)

/- ### Execution lemmas for the highlight loop and the commit step -/

theorem create_note_live (env : Env) (k html : Str) (lg : SentLog) (tr : List Event) :
    create_note_for_item env k html false lg tr =
      (.ok (), lg, tr ++ [.postItems (notePayload k html)]) := by
  unfold create_note_for_item
  simp [safe_post, run_bind, run_emit, run_pure]

theorem create_note_dry (env : Env) (k html : Str) (lg : SentLog) (tr : List Event) :
    create_note_for_item env k html true lg tr = (.ok (), lg, tr) := rfl

/-- The highlight loop always succeeds and only appends to the trace. -/
theorem syncHighlights_ok (env : Env) (dry : Bool) (t k : Str) (already : List Str)
    (hs : List Highlight) : ∀ lg tr, ∃ lg' Δ,
    syncHighlights env dry t k already hs lg tr = (.ok (), lg', tr ++ Δ) := by
  induction hs with
  | nil =>
    intro lg tr
    exact ⟨lg, [], by simp [syncHighlights]⟩
  | cons h rest ih =>
    intro lg tr
    unfold syncHighlights
    by_cases hmem : highlight_hash h ∈ already
    · obtain ⟨lg', Δ, heq⟩ := ih lg tr
      exact ⟨lg', Δ, by rw [if_pos hmem]; exact heq⟩
    · rw [if_neg hmem]
      cases dry with
      | true =>
        obtain ⟨lg', Δ, heq⟩ := ih lg tr
        refine ⟨lg', Δ, ?_⟩
        rw [run_bind, create_note_dry]
        exact heq
      | false =>
        obtain ⟨lg', Δ, heq⟩ := ih (appendFp lg t (highlight_hash h))
          (tr ++ [.postItems (notePayload k (note_html_from_highlight h))])
        refine ⟨lg', .postItems (notePayload k (note_html_from_highlight h)) :: Δ, ?_⟩
        rw [run_bind, create_note_live]
        simp [run_bind, run_modifyLog, run_pure, heq]

/-- The sent-log after the commit step: `nt` appended to `_done_titles` when
new (lines 380–381). -/
def addDone (lg : SentLog) (nt : Str) : SentLog :=
  if nt ∈ lg.doneTitles then lg else { lg with doneTitles := lg.doneTitles ++ [nt] }

theorem mem_addDone (lg : SentLog) (nt : Str) : nt ∈ (addDone lg nt).doneTitles := by
  unfold addDone
  split
  · assumption
  · simp

theorem commitDoc_live (env : Env) (nt : Str) (lg : SentLog) (tr : List Event) :
    commitDoc env false nt lg tr =
      (.ok (), addDone lg nt, tr ++
        [if env.vaultWritable then Event.savePrimary (addDone lg nt)
         else Event.saveFallback (addDone lg nt)]) := by
  unfold commitDoc save_sent_log addDone
  cases hw : env.vaultWritable <;>
    simp [run_bind, run_modifyLog, run_getLog, run_emit, hw]

theorem commitDoc_dry (env : Env) (nt : Str) (lg : SentLog) (tr : List Event) :
    commitDoc env true nt lg tr = (.ok (), lg, tr) := rfl

theorem childrenAndCommit_ok (env : Env) (dry : Bool) (t nt k : Str)
    (hs : List Highlight) (already : List Str) (lg : SentLog) (tr : List Event) :
    ∃ lg' tr', childrenAndCommit env dry t nt k hs already lg tr = (.ok (), lg', tr') := by
  obtain ⟨lgm, Δ, hsync⟩ := syncHighlights_ok env dry t k already hs lg tr
  unfold childrenAndCommit
  cases dry with
  | true => exact ⟨lgm, tr ++ Δ, by rw [run_bind, hsync]; rfl⟩
  | false =>
    refine ⟨addDone lgm nt, (tr ++ Δ) ++
      [if env.vaultWritable then Event.savePrimary (addDone lgm nt)
       else Event.saveFallback (addDone lgm nt)], ?_⟩
    rw [run_bind, hsync]
    dsimp only
    rw [commitDoc_live]

/-- Claim C5: in live mode, once a document's highlight loop has attempted
all highlights (`childrenAndCommit` is exactly the per-document tail of
`processDoc` after parent resolution), the normalized title is in
`_done_titles` of the final journal and the very last event is the
persistence of that final journal — to the vault when writable, otherwise
to the fixed local fallback (with a printed warning) — and the computation
returns `.ok`, so the run continues to the next document either way. -/
theorem done_marked_and_persisted (env : Env) (title norm_t itemKey : Str)
    (hs : List Highlight) (already : List Str) (lg : SentLog) (tr : List Event) :
    ∃ lg' Δ,
      childrenAndCommit env false title norm_t itemKey hs already lg tr =
        (.ok (), lg', (tr ++ Δ) ++
          [if env.vaultWritable then Event.savePrimary lg' else Event.saveFallback lg']) ∧
      norm_t ∈ lg'.doneTitles := by
  obtain ⟨lgm, Δ, hsync⟩ := syncHighlights_ok env false title itemKey already hs lg tr
  refine ⟨addDone lgm norm_t, Δ, ?_, mem_addDone _ _⟩
  unfold childrenAndCommit
  rw [run_bind, hsync]
  dsimp only
  rw [commitDoc_live]

/-- Claim C10: the duplicate check consults only the `already` snapshot
taken before the loop, never the updated journal, so two highlights with
equal fingerprints that are not in the snapshot each trigger their own
child-creation POST, and the fingerprint is appended twice. -/
theorem intra_doc_duplicates_both_sent (env : Env) (t k : Str) (ha hb : Highlight)
    (already : List Str) (lg : SentLog) (tr : List Event)
    (heq : highlight_hash ha = highlight_hash hb)
    (hnew : highlight_hash ha ∉ already) :
    syncHighlights env false t k already [ha, hb] lg tr =
      (.ok (), appendFp (appendFp lg t (highlight_hash ha)) t (highlight_hash hb),
        tr ++ [.postItems (notePayload k (note_html_from_highlight ha)),
               .postItems (notePayload k (note_html_from_highlight hb))]) := by
  have hnew2 : highlight_hash hb ∉ already := heq ▸ hnew
  unfold syncHighlights
  rw [if_neg hnew, run_bind, create_note_live]
  simp [run_bind, run_modifyLog, run_pure, if_neg hnew2, create_note_live,
    syncHighlights]

/-- Witness for the C10 theorem: the same highlight twice in one document. -/
theorem intra_doc_duplicates_both_sent_witness :
    syncHighlights baseEnv false (lit "T") (lit "K") [] [h0, h0] emptyLog [] =
      (.ok (), appendFp (appendFp emptyLog (lit "T") (highlight_hash h0)) (lit "T")
        (highlight_hash h0),
        [.postItems (notePayload (lit "K") (note_html_from_highlight h0)),
         .postItems (notePayload (lit "K") (note_html_from_highlight h0))]) :=
  intra_doc_duplicates_both_sent baseEnv (lit "T") (lit "K") h0 h0 [] emptyLog [] rfl
    (by decide)

/- ### Claim C6: the resume skip -/

theorem run_bind_cc_processed (env : Env) (dry : Bool) (t nt k : Str)
    (hs : List Highlight) (already : List Str) (lg : SentLog) (tr : List Event) :
    ((childrenAndCommit env dry t nt k hs already >>= fun _ =>
        pure DocOutcome.processed) lg tr).1 = .ok .processed := by
  obtain ⟨lg', tr', h⟩ := childrenAndCommit_ok env dry t nt k hs already lg tr
  rw [run_bind, h]
  rfl

/-- The per-document tail after the parent is resolved (setdefault, snapshot,
highlight loop, commit) always terminates in the `processed` outcome. -/
theorem tail_processed (env : Env) (dry : Bool) (title nt itemKey : Str)
    (hs : List Highlight) (F : SentLog → SentLog) (lg : SentLog) (tr : List Event) :
    ((do
      modifyLog F
      let lg1 ← getLog
      let already := (alookup lg1.perTitle title).getD []
      childrenAndCommit env dry title nt itemKey hs already
      pure DocOutcome.processed : M DocOutcome) lg tr).1 = .ok .processed := by
  rw [run_bind, run_modifyLog]
  dsimp only
  rw [run_bind, run_getLog]
  dsimp only
  exact run_bind_cc_processed env dry title nt itemKey hs _ (F lg) tr

/-- Claim C6: for a document that survives the title and filter checks, the
resume skip fires exactly when the run is live, resume is enabled, and the
NormalizedTitle is already in `_done_titles`; when it fires the document is
skipped entirely — the journal and the trace are returned unchanged for
every oracle, so the resolver is never consulted and no transport
operation is issued. -/
theorem resume_skip_iff (cfg : Cfg) (env : Env) (ck : Option Str) (doc : Doc)
    (lg : SentLog) (tr : List Event) (title : Str)
    (htitle : doc.title = some title)
    (hne : title.isEmpty = false)
    (hfilt : title_matches_filters cfg.onlyTitles title = true) :
    ((processDoc cfg env ck doc lg tr).1 = .ok .resumeSkipped ↔
      (cfg.dryRun = false ∧ cfg.resumeEnabled = true ∧
        normalize_title title ∈ lg.doneTitles)) ∧
    ((cfg.dryRun = false ∧ cfg.resumeEnabled = true ∧
        normalize_title title ∈ lg.doneTitles) →
      processDoc cfg env ck doc lg tr = (.ok .resumeSkipped, lg, tr)) := by
  rcases doc with ⟨t?, author, hs⟩
  simp only [] at htitle
  subst htitle
  unfold processDoc
  simp only [hne, hfilt, Bool.not_true, Bool.false_eq_true, if_false]
  simp only [run_bind, run_getLog]
  by_cases hG : (cfg.resumeEnabled && !cfg.dryRun &&
      decide (normalize_title title ∈ lg.doneTitles)) = true
  · rw [if_pos hG]
    have hcond : cfg.dryRun = false ∧ cfg.resumeEnabled = true ∧
        normalize_title title ∈ lg.doneTitles := by
      simp only [Bool.and_eq_true, Bool.not_eq_true', decide_eq_true_eq] at hG
      tauto
    exact ⟨⟨fun _ => hcond, fun _ => rfl⟩, fun _ => rfl⟩
  · rw [if_neg hG]
    have hncond : ¬(cfg.dryRun = false ∧ cfg.resumeEnabled = true ∧
        normalize_title title ∈ lg.doneTitles) := by
      intro hc
      apply hG
      simp only [Bool.and_eq_true, Bool.not_eq_true', decide_eq_true_eq]
      tauto
    refine ⟨⟨fun habs => ?_, fun hc => absurd hc hncond⟩, fun hc => absurd hc hncond⟩
    exfalso
    rcases hf : find_or_create_book_item env title author ck cfg.dryRun lg tr
      with ⟨res, lg1, tr1⟩
    rw [run_bind, hf] at habs
    cases res with
    | error e => simp at habs
    | ok k? =>
      cases k? with
      | none => simp at habs
      | some itemKey =>
        dsimp only at habs
        split at habs
        · rcases he : ensure_item_in_collection env itemKey (ck.getD []) cfg.dryRun lg1 tr1
            with ⟨res2, lg2, tr2⟩
          rw [run_bind, he] at habs
          cases res2 with
          | error e => simp at habs
          | ok u =>
            cases u
            rw [tail_processed] at habs
            simp at habs
        · rw [run_bind, run_pure] at habs
          rw [tail_processed] at habs
          simp at habs

/-- Witness for the C6 theorem: live resume-enabled run, "deep work" already
done, concrete oracle — the document is skipped with journal and trace
untouched. -/
theorem resume_skip_iff_witness :
    processDoc cfgLive baseEnv none docDW ⟨[], [lit "deep work"], []⟩ [] =
      (.ok .resumeSkipped, ⟨[], [lit "deep work"], []⟩, []) :=
  (resume_skip_iff cfgLive baseEnv none docDW ⟨[], [lit "deep work"], []⟩ []
    (lit "Deep Work") rfl rfl rfl).2 ⟨rfl, rfl, by decide⟩
